/-
Verification of the merge-downloader core logic: calendar arithmetic
(`DateProcessor`), the monthly-accumulation staleness policy
(`MonthAccumParser.get_file`), the batch resolution loop
(`Downloader.get_files` / `Downloader._process_file`), the retrying fetcher
(`FileDownloader.download_file`), the stats precomputation job
(`StatsCalculator`) and the SPI dependency gate (`SPIProcessor`).

Python `datetime` values are embedded as the `DT` structure (proleptic
Gregorian calendar, naive, second precision — the code never uses
microseconds).  `datetime` comparison is component-wise lexicographic;
`timedelta` is embedded through a day count (`civilDays`, Howard Hinnant's
civil-from-days algorithm, so differences agree with Python's date
subtraction) with `.days`/`.seconds` the floor quotient/remainder by 86400,
exactly as `datetime.timedelta` normalises.
-/
import Mathlib

namespace MergeDl

/-- `DateFrequency` enum of `mergedownloader/enums.py`: the `relativedelta`
step is 1 day / 1 month / 1 year / 1 hour. -/
inductive DateFrequency where
  | DAILY
  | MONTHLY
  | YEARLY
  | HOURLY
deriving DecidableEq, Repr

/-- The data types of `mergedownloader/inpeparser.py` (`InpeTypes`) that the
claims mention. -/
inductive DType where
  | DAILY_RAIN
  | MONTHLY_ACCUM_YEARLY
  | MONTHLY_ACCUM_MANUAL
  | MONTHLY_AVG_N
  | MONTHLY_STD_N
  | MONTHLY_SPI
deriving DecidableEq, Repr

/-- A naive Python `datetime` (microseconds are never used by the code under
study). -/
structure DT where
  year : Nat
  month : Nat
  day : Nat
  hour : Nat
  minute : Nat
  second : Nat
deriving DecidableEq, Repr

/-- Python `calendar.isleap`. -/
def isLeap (y : Nat) : Bool :=
  (y % 4 == 0 && y % 100 != 0) || (y % 400 == 0)

/-- Second component of Python `calendar.monthrange(y, m)`: the number of
days of month `m` of year `y`. -/
def monthrange (y m : Nat) : Nat :=
  if m = 2 then (if isLeap y then 29 else 28)
  else if m = 4 ∨ m = 6 ∨ m = 9 ∨ m = 11 then 30
  else 31

/-- The ranges `datetime` enforces on construction. -/
def DT.Valid (t : DT) : Prop :=
  1 ≤ t.month ∧ t.month ≤ 12 ∧ 1 ≤ t.day ∧ t.day ≤ monthrange t.year t.month ∧
  t.hour < 24 ∧ t.minute < 60 ∧ t.second < 60

instance (t : DT) : Decidable t.Valid := by
  unfold DT.Valid; infer_instance

/-- Python `datetime` comparison `a <= b`: lexicographic on the
components. -/
def DT.ble (a b : DT) : Bool :=
  if a.year ≠ b.year then a.year < b.year
  else if a.month ≠ b.month then a.month < b.month
  else if a.day ≠ b.day then a.day < b.day
  else if a.hour ≠ b.hour then a.hour < b.hour
  else if a.minute ≠ b.minute then a.minute < b.minute
  else a.second ≤ b.second

/-- Python `datetime` comparison `a < b`. -/
def DT.blt (a b : DT) : Bool :=
  DT.ble a b && !(decide (a = b))

/-- Mixed-radix linearisation of a datetime; on `Valid` datetimes it is
strictly monotone for the lexicographic (i.e. chronological) order. -/
def DT.code (t : DT) : Nat :=
  ((((t.year * 13 + t.month) * 32 + t.day) * 24 + t.hour) * 60 + t.minute) * 60
    + t.second

theorem DT.code_def (t : DT) :
    t.code = 35942400 * t.year + 2764800 * t.month + 86400 * t.day
      + 3600 * t.hour + 60 * t.minute + t.second := by
  unfold DT.code; ring

theorem monthrange_pos (y m : Nat) : 1 ≤ monthrange y m := by
  unfold monthrange; split_ifs <;> simp

theorem monthrange_le (y m : Nat) : monthrange y m ≤ 31 := by
  unfold monthrange; split_ifs <;> simp

theorem DT.ble_iff_code {a b : DT} (ha : a.Valid) (hb : b.Valid) :
    DT.ble a b = true ↔ a.code ≤ b.code := by
  obtain ⟨ha1, ha2, ha3, ha4, ha5, ha6, ha7⟩ := ha
  obtain ⟨hb1, hb2, hb3, hb4, hb5, hb6, hb7⟩ := hb
  have ha8 := monthrange_le a.year a.month
  have hb8 := monthrange_le b.year b.month
  rw [DT.code_def, DT.code_def]
  unfold DT.ble
  split_ifs <;> simp only [decide_eq_true_eq] <;> omega

theorem DT.code_inj {a b : DT} (ha : a.Valid) (hb : b.Valid)
    (h : a.code = b.code) : a = b := by
  obtain ⟨ha1, ha2, ha3, ha4, ha5, ha6, ha7⟩ := ha
  obtain ⟨hb1, hb2, hb3, hb4, hb5, hb6, hb7⟩ := hb
  have ha8 := monthrange_le a.year a.month
  have hb8 := monthrange_le b.year b.month
  rw [DT.code_def, DT.code_def] at h
  have : a.year = b.year ∧ a.month = b.month ∧ a.day = b.day ∧
      a.hour = b.hour ∧ a.minute = b.minute ∧ a.second = b.second := by omega
  obtain ⟨e1, e2, e3, e4, e5, e6⟩ := this
  cases a; cases b; simp_all

theorem DT.blt_iff_code {a b : DT} (ha : a.Valid) (hb : b.Valid) :
    DT.blt a b = true ↔ a.code < b.code := by
  unfold DT.blt
  rw [Bool.and_eq_true, DT.ble_iff_code ha hb]
  constructor
  · rintro ⟨h1, h2⟩
    rcases Nat.lt_or_ge a.code b.code with h | h
    · exact h
    · exfalso
      have : a = b := DT.code_inj ha hb (Nat.le_antisymm h1 h)
      simp [this] at h2
  · intro h
    refine ⟨Nat.le_of_lt h, ?_⟩
    simp only [Bool.not_eq_eq_eq_not, Bool.not_true, decide_eq_false_iff_not]
    intro he; subst he; exact Nat.lt_irrefl _ h

theorem DT.ble_refl (a : DT) : DT.ble a a = true := by
  unfold DT.ble; simp

/-- One day later (`relativedelta(days=1)`, i.e. ordinary datetime day
rollover). -/
def nextDay (t : DT) : DT :=
  if t.day < monthrange t.year t.month then { t with day := t.day + 1 }
  else if t.month < 12 then { t with month := t.month + 1, day := 1 }
  else { t with year := t.year + 1, month := 1, day := 1 }

/-- The step `relativedelta(**date_freq.value)` applied by
`DateProcessor.dates_range`.  `relativedelta(months=1)` / `(years=1)`
increment the month / year and clamp the day to the target month's length
(e.g. Jan 31 + 1 month = Feb 28). -/
def addStep (f : DateFrequency) (t : DT) : DT :=
  match f with
  | .DAILY => nextDay t
  | .MONTHLY =>
      if t.month = 12 then
        { t with year := t.year + 1, month := 1,
                 day := min t.day (monthrange (t.year + 1) 1) }
      else
        { t with month := t.month + 1,
                 day := min t.day (monthrange t.year (t.month + 1)) }
  | .YEARLY =>
      { t with year := t.year + 1,
               day := min t.day (monthrange (t.year + 1) t.month) }
  | .HOURLY =>
      if t.hour < 23 then { t with hour := t.hour + 1 }
      else { nextDay t with hour := 0 }

theorem DT.valid_mk {y m d hh mi s : Nat} (e1 : 1 ≤ m) (e2 : m ≤ 12)
    (e3 : 1 ≤ d) (e4 : d ≤ monthrange y m) (e5 : hh < 24) (e6 : mi < 60)
    (e7 : s < 60) : (DT.mk y m d hh mi s).Valid :=
  ⟨e1, e2, e3, e4, e5, e6, e7⟩

theorem DT.code_mk (y m d hh mi s : Nat) :
    (DT.mk y m d hh mi s).code =
      35942400 * y + 2764800 * m + 86400 * d + 3600 * hh + 60 * mi + s := by
  rw [DT.code_def]

theorem nextDay_valid {t : DT} (h : t.Valid) : (nextDay t).Valid := by
  obtain ⟨h1, h2, h3, h4, h5, h6, h7⟩ := h
  unfold nextDay
  split_ifs with hd hm
  · exact DT.valid_mk h1 h2 (by omega) (by omega) h5 h6 h7
  · exact DT.valid_mk (by omega) (by omega) (by omega)
      (monthrange_pos t.year (t.month + 1)) h5 h6 h7
  · exact DT.valid_mk (by omega) (by omega) (by omega)
      (monthrange_pos (t.year + 1) 1) h5 h6 h7

theorem nextDay_code_lt {t : DT} (h : t.Valid) : t.code < (nextDay t).code := by
  obtain ⟨h1, h2, h3, h4, h5, h6, h7⟩ := h
  have h8 := monthrange_le t.year t.month
  unfold nextDay
  split_ifs with hd hm <;>
    rw [show t.code = _ from DT.code_def t, DT.code_mk] <;> omega

theorem addStep_valid {t : DT} (f : DateFrequency) (h : t.Valid) :
    (addStep f t).Valid := by
  obtain ⟨h1, h2, h3, h4, h5, h6, h7⟩ := h
  cases f with
  | DAILY =>
      exact nextDay_valid ⟨h1, h2, h3, h4, h5, h6, h7⟩
  | MONTHLY =>
      simp only [addStep]
      split_ifs with hm
      · exact DT.valid_mk (by omega) (by omega)
          (le_min h3 (monthrange_pos _ _)) (Nat.min_le_right _ _) h5 h6 h7
      · exact DT.valid_mk (by omega) (by omega)
          (le_min h3 (monthrange_pos _ _)) (Nat.min_le_right _ _) h5 h6 h7
  | YEARLY =>
      simp only [addStep]
      exact DT.valid_mk h1 h2
        (le_min h3 (monthrange_pos _ _)) (Nat.min_le_right _ _) h5 h6 h7
  | HOURLY =>
      simp only [addStep]
      split_ifs with hh
      · exact DT.valid_mk h1 h2 h3 h4 (by omega) h6 h7
      · have hv := nextDay_valid ⟨h1, h2, h3, h4, h5, h6, h7⟩
        obtain ⟨g1, g2, g3, g4, g5, g6, g7⟩ := hv
        exact DT.valid_mk g1 g2 g3 g4 (by omega) g6 g7

theorem addStep_code_lt {t : DT} (f : DateFrequency) (h : t.Valid) :
    t.code < (addStep f t).code := by
  obtain ⟨h1, h2, h3, h4, h5, h6, h7⟩ := h
  have h8 := monthrange_le t.year t.month
  cases f with
  | DAILY =>
      exact nextDay_code_lt ⟨h1, h2, h3, h4, h5, h6, h7⟩
  | MONTHLY =>
      simp only [addStep]
      split_ifs with hm
      · have hge : 1 ≤ min t.day (monthrange (t.year + 1) 1) :=
          le_min h3 (monthrange_pos _ _)
        have hle : min t.day (monthrange (t.year + 1) 1) ≤ t.day :=
          Nat.min_le_left _ _
        rw [show t.code = _ from DT.code_def t, DT.code_mk]; omega
      · have hge : 1 ≤ min t.day (monthrange t.year (t.month + 1)) :=
          le_min h3 (monthrange_pos _ _)
        have hle : min t.day (monthrange t.year (t.month + 1)) ≤ t.day :=
          Nat.min_le_left _ _
        rw [show t.code = _ from DT.code_def t, DT.code_mk]; omega
  | YEARLY =>
      simp only [addStep]
      have hge : 1 ≤ min t.day (monthrange (t.year + 1) t.month) :=
        le_min h3 (monthrange_pos _ _)
      have hle : min t.day (monthrange (t.year + 1) t.month) ≤ t.day :=
        Nat.min_le_left _ _
      rw [show t.code = _ from DT.code_def t, DT.code_mk]; omega
  | HOURLY =>
      simp only [addStep]
      split_ifs with hh
      · rw [show t.code = _ from DT.code_def t, DT.code_mk]; omega
      · unfold nextDay
        split_ifs with hd hm <;>
          rw [show t.code = _ from DT.code_def t] <;>
          simp only [DT.code_mk] <;> omega

/-- Zero-pad to two digits (strftime field). -/
def pad2 (n : Nat) : String :=
  if n < 10 then "0" ++ toString n else toString n

/-- Zero-pad to four digits (strftime `%Y`). -/
def pad4 (n : Nat) : String :=
  if n < 10 then "000" ++ toString n
  else if n < 100 then "00" ++ toString n
  else if n < 1000 then "0" ++ toString n
  else toString n

/-- `DateProcessor.normalize_date`: `date.strftime("%Y%m%d")`. -/
def normalize_date (t : DT) : String :=
  pad4 t.year ++ pad2 t.month ++ pad2 t.day

/-- The hourly format of `DateProcessor.dates_range`:
`pretty_date(date, "%Y%m%dT%H%M%S")`. -/
def hourly_fmt (t : DT) : String :=
  pad4 t.year ++ pad2 t.month ++ pad2 t.day ++ "T"
    ++ pad2 t.hour ++ pad2 t.minute ++ pad2 t.second

/-- The string emitted per loop iteration of `DateProcessor.dates_range`:
hourly entries use `%Y%m%dT%H%M%S`, all other frequencies `normalize_date`. -/
def rangeFmt (f : DateFrequency) (t : DT) : String :=
  match f with
  | .HOURLY => hourly_fmt t
  | _ => normalize_date t

/-- The `while current_date <= final_date` loop of
`DateProcessor.dates_range`, collecting the visited datetimes.  The loop is
driven by a fuel count; `rangeFuel` below always provides enough fuel, since
every step strictly increases `DT.code`. -/
def datesAux (f : DateFrequency) (final : DT) : Nat → DT → List DT
  | 0, _ => []
  | fuel + 1, cur =>
      if DT.ble cur final then cur :: datesAux f final fuel (addStep f cur)
      else []

/-- Fuel that dominates the iteration count of the loop. -/
def rangeFuel (start final : DT) : Nat :=
  final.code + 2 - start.code

/-- The sequence of datetimes visited by `DateProcessor.dates_range`. -/
def datesRangeDT (start final : DT) (f : DateFrequency) : List DT :=
  datesAux f final (rangeFuel start final) start

/-- `DateProcessor.dates_range(start_date, end_date, date_freq)`: the visited
datetimes, each formatted as the loop formats it. -/
def dates_range (start final : DT) (f : DateFrequency) : List String :=
  (datesRangeDT start final f).map (rangeFmt f)

/-- `DateProcessor.start_end_dates(date)`: normalized first day
`datetime(y, m, 1)` and last day `datetime(y, m, calendar.monthrange(y, m)[1])`
of the month of `date`.  Note that the computation reads no clock: the result
depends only on `(year, month)`. -/
def start_end_dates (t : DT) : String × String :=
  (normalize_date ⟨t.year, t.month, 1, 0, 0, 0⟩,
   normalize_date ⟨t.year, t.month, monthrange t.year t.month, 0, 0, 0⟩)

theorem datesAux_valid {f : DateFrequency} {final : DT} :
    ∀ (fuel : Nat) (cur : DT), cur.Valid →
      ∀ x ∈ datesAux f final fuel cur, x.Valid := by
  intro fuel
  induction fuel with
  | zero => intro cur _ x hx; simp [datesAux] at hx
  | succ n ih =>
      intro cur hc x hx
      unfold datesAux at hx
      split_ifs at hx with hg
      · rcases List.mem_cons.mp hx with h | h
        · exact h ▸ hc
        · exact ih (addStep f cur) (addStep_valid f hc) x h
      · simp at hx

theorem datesAux_lb {f : DateFrequency} {final : DT} :
    ∀ (fuel : Nat) (cur : DT), cur.Valid →
      ∀ x ∈ datesAux f final fuel cur, cur.code ≤ x.code := by
  intro fuel
  induction fuel with
  | zero => intro cur _ x hx; simp [datesAux] at hx
  | succ n ih =>
      intro cur hc x hx
      unfold datesAux at hx
      split_ifs at hx with hg
      · rcases List.mem_cons.mp hx with h | h
        · exact h ▸ Nat.le_refl _
        · exact Nat.le_of_lt (Nat.lt_of_lt_of_le (addStep_code_lt f hc)
            (ih (addStep f cur) (addStep_valid f hc) x h))
      · simp at hx

theorem datesAux_ub {f : DateFrequency} {final : DT} :
    ∀ (fuel : Nat) (cur : DT),
      ∀ x ∈ datesAux f final fuel cur, DT.ble x final = true := by
  intro fuel
  induction fuel with
  | zero => intro cur x hx; simp [datesAux] at hx
  | succ n ih =>
      intro cur x hx
      unfold datesAux at hx
      split_ifs at hx with hg
      · rcases List.mem_cons.mp hx with h | h
        · exact h ▸ hg
        · exact ih (addStep f cur) x h
      · simp at hx

theorem datesAux_pairwise {f : DateFrequency} {final : DT} :
    ∀ (fuel : Nat) (cur : DT), cur.Valid →
      List.Pairwise (fun a b => DT.blt a b = true)
        (datesAux f final fuel cur) := by
  intro fuel
  induction fuel with
  | zero => intro cur _; simp [datesAux]
  | succ n ih =>
      intro cur hc
      unfold datesAux
      split_ifs with hg
      · refine List.pairwise_cons.mpr ⟨?_, ih (addStep f cur) (addStep_valid f hc)⟩
        intro x hx
        have hxv : x.Valid :=
          datesAux_valid n (addStep f cur) (addStep_valid f hc) x hx
        have hcode : cur.code < x.code :=
          Nat.lt_of_lt_of_le (addStep_code_lt f hc)
            (datesAux_lb n (addStep f cur) (addStep_valid f hc) x hx)
        exact (DT.blt_iff_code hc hxv).mpr hcode
      · simp

theorem datesAux_head {f : DateFrequency} {final cur : DT} {fuel : Nat}
    (hg : DT.ble cur final = true) :
    (datesAux f final (fuel + 1) cur).head? = some cur := by
  unfold datesAux
  simp [hg]

theorem rangeFuel_pos {start final : DT} (hs : start.Valid) (he : final.Valid)
    (h : DT.ble start final = true) : 1 ≤ rangeFuel start final := by
  have := (DT.ble_iff_code hs he).mp h
  unfold rangeFuel
  omega

theorem datesRangeDT_head {start final : DT} {f : DateFrequency}
    (hs : start.Valid) (he : final.Valid) (h : DT.ble start final = true) :
    (datesRangeDT start final f).head? = some start := by
  obtain ⟨n, hn⟩ : ∃ n, rangeFuel start final = n + 1 := by
    have := rangeFuel_pos hs he h
    exact ⟨rangeFuel start final - 1, by omega⟩
  unfold datesRangeDT
  rw [hn]
  exact datesAux_head h

theorem datesRangeDT_empty {start final : DT} {f : DateFrequency}
    (h : DT.ble start final = false) : datesRangeDT start final f = [] := by
  unfold datesRangeDT
  cases rangeFuel start final with
  | zero => rfl
  | succ n => unfold datesAux; simp [h]

theorem dates_range_singleton {d : DT} (f : DateFrequency) (hd : d.Valid) :
    dates_range d d f = [rangeFmt f d] := by
  have hfuel : rangeFuel d d = 2 := by unfold rangeFuel; omega
  have hnext : DT.ble (addStep f d) d = false := by
    by_contra hb
    have hb2 : DT.ble (addStep f d) d = true := by
      cases hc : DT.ble (addStep f d) d
      · exact absurd hc hb
      · rfl
    have := (DT.ble_iff_code (addStep_valid f hd) hd).mp hb2
    have := addStep_code_lt f hd
    omega
  unfold dates_range datesRangeDT
  rw [hfuel]
  unfold datesAux
  rw [DT.ble_refl]
  unfold datesAux
  simp [hnext]

/-- **C8** (amended).  For valid `start`, `end` and any frequency, the date
range is strictly increasing, begins with `start` when `start <= end`, every
entry is at most `end`, `dates_range(d, d, freq)` is a singleton, the range is
empty when `start > end`, and the emitted strings are the visited dates
formatted `YYYYMMDDThhmmss` for the hourly frequency and `YYYYMMDD`
otherwise.  (The original claim's "inclusive of both ends" fails: the end is
reached only when whole steps from `start` land on it — see the
counterexample.) -/
theorem dates_range_spec (start final : DT) (f : DateFrequency)
    (hs : start.Valid) (he : final.Valid) :
    List.Pairwise (fun a b => DT.blt a b = true) (datesRangeDT start final f) ∧
    (∀ x ∈ datesRangeDT start final f, DT.ble x final = true) ∧
    (DT.ble start final = true →
      (datesRangeDT start final f).head? = some start) ∧
    (DT.ble start final = false → dates_range start final f = []) ∧
    dates_range start start f = [rangeFmt f start] ∧
    (f = DateFrequency.HOURLY →
      dates_range start final f = (datesRangeDT start final f).map hourly_fmt) ∧
    (f ≠ DateFrequency.HOURLY →
      dates_range start final f =
        (datesRangeDT start final f).map normalize_date) := by
  refine ⟨datesAux_pairwise _ _ hs, fun x hx => datesAux_ub _ _ x hx,
    datesRangeDT_head hs he, ?_, dates_range_singleton f hs, ?_, ?_⟩
  · intro h
    unfold dates_range
    rw [datesRangeDT_empty h]
    rfl
  · intro h
    subst h
    rfl
  · intro h
    unfold dates_range
    have : rangeFmt f = normalize_date := by
      cases f with
      | HOURLY => exact absurd rfl h
      | DAILY => rfl
      | MONTHLY => rfl
      | YEARLY => rfl
    rw [this]

/-- **C8** counterexample to the claim as written: a monthly range from
2023-01-01 to 2023-01-15 contains only `"20230101"` — the end date
`"20230115"` is not included, so the range is not "inclusive of both ends". -/
theorem dates_range_not_end_inclusive_cex :
    dates_range ⟨2023, 1, 1, 0, 0, 0⟩ ⟨2023, 1, 15, 0, 0, 0⟩
        DateFrequency.MONTHLY = ["20230101"] ∧
    "20230115" ∉ dates_range ⟨2023, 1, 1, 0, 0, 0⟩ ⟨2023, 1, 15, 0, 0, 0⟩
        DateFrequency.MONTHLY := by
  constructor
  · rfl
  · intro h
    rw [show dates_range ⟨2023, 1, 1, 0, 0, 0⟩ ⟨2023, 1, 15, 0, 0, 0⟩
        DateFrequency.MONTHLY = ["20230101"] from rfl] at h
    simp at h

/-- Witness for `dates_range_spec` at a concrete daily range. -/
theorem dates_range_spec_witness :
    (datesRangeDT ⟨2023, 4, 1, 0, 0, 0⟩ ⟨2023, 4, 3, 0, 0, 0⟩
        DateFrequency.DAILY).head? = some ⟨2023, 4, 1, 0, 0, 0⟩ ∧
    dates_range ⟨2023, 4, 1, 0, 0, 0⟩ ⟨2023, 4, 1, 0, 0, 0⟩
        DateFrequency.DAILY = [rangeFmt DateFrequency.DAILY ⟨2023, 4, 1, 0, 0, 0⟩] :=
  ⟨(dates_range_spec ⟨2023, 4, 1, 0, 0, 0⟩ ⟨2023, 4, 3, 0, 0, 0⟩
      DateFrequency.DAILY (by decide) (by decide)).2.2.1 (by decide),
   (dates_range_spec ⟨2023, 4, 1, 0, 0, 0⟩ ⟨2023, 4, 1, 0, 0, 0⟩
      DateFrequency.DAILY (by decide) (by decide)).2.2.2.2.1⟩

/-- **C2** (amended).  `DateProcessor.start_end_dates` returns the normalized
first day and the *true calendar* last day of the month of the given date,
for every date — also when the month is the current month: the function reads
no clock though, so no capping at "today" takes place.  The returned bounds
are valid dates bracketing the given date within its month. -/
theorem start_end_dates_true_bounds (t : DT) (h : t.Valid) :
    start_end_dates t =
      (normalize_date ⟨t.year, t.month, 1, 0, 0, 0⟩,
       normalize_date ⟨t.year, t.month, monthrange t.year t.month, 0, 0, 0⟩) ∧
    (DT.mk t.year t.month 1 0 0 0).Valid ∧
    (DT.mk t.year t.month (monthrange t.year t.month) 0 0 0).Valid ∧
    DT.ble ⟨t.year, t.month, 1, 0, 0, 0⟩ ⟨t.year, t.month, t.day, 0, 0, 0⟩
      = true ∧
    DT.ble ⟨t.year, t.month, t.day, 0, 0, 0⟩
      ⟨t.year, t.month, monthrange t.year t.month, 0, 0, 0⟩ = true := by
  obtain ⟨h1, h2, h3, h4, h5, h6, h7⟩ := h
  refine ⟨rfl, DT.valid_mk h1 h2 (by omega) (monthrange_pos _ _) (by omega)
      (by omega) (by omega),
    DT.valid_mk h1 h2 (monthrange_pos _ _) (Nat.le_refl _) (by omega)
      (by omega) (by omega), ?_, ?_⟩
  · unfold DT.ble
    split_ifs <;> simp_all <;> omega
  · unfold DT.ble
    split_ifs <;> simp_all <;> omega

/-- **C2** counterexample to the claim as written.  Instantiate the claim at a
moment when "today" is 2026-10-12, and request the bounds of that very date —
a date that certainly "falls in the current month".  The claim demands the
last day be capped at today (`"20261012"`); the code returns the calendar end
of the month, `"20261031"`. -/
theorem start_end_dates_no_capping_cex :
    start_end_dates ⟨2026, 10, 12, 0, 0, 0⟩ = ("20261001", "20261031") ∧
    (start_end_dates ⟨2026, 10, 12, 0, 0, 0⟩).2 ≠
      normalize_date ⟨2026, 10, 12, 0, 0, 0⟩ := by
  constructor
  · rfl
  · decide

/-- Witness for `start_end_dates_true_bounds` on 2023-02-15. -/
theorem start_end_dates_true_bounds_witness :
    start_end_dates ⟨2023, 2, 15, 0, 0, 0⟩ =
      (normalize_date ⟨2023, 2, 1, 0, 0, 0⟩,
       normalize_date ⟨2023, 2, 28, 0, 0, 0⟩) ∧
    DT.ble ⟨2023, 2, 15, 0, 0, 0⟩ ⟨2023, 2, 28, 0, 0, 0⟩ = true := by
  have h := start_end_dates_true_bounds ⟨2023, 2, 15, 0, 0, 0⟩ (by decide)
  exact ⟨h.1, h.2.2.2.2⟩

/-- The one-month run of the `dates_range` loop at daily frequency: starting
at day `d` of a month and ending at the month's last day, the loop visits
exactly the days `d, d+1, ..., monthrange y m`. -/
theorem datesAux_month_run (y m : Nat) (hm1 : 1 ≤ m) (hm2 : m ≤ 12) :
    ∀ (k d fuel : Nat), 1 ≤ d → d + k = monthrange y m → k + 2 ≤ fuel →
      datesAux DateFrequency.DAILY ⟨y, m, monthrange y m, 0, 0, 0⟩ fuel
          ⟨y, m, d, 0, 0, 0⟩ =
        (List.range (k + 1)).map (fun i => ⟨y, m, d + i, 0, 0, 0⟩) := by
  intro k
  induction k with
  | zero =>
      intro d fuel hd1 hd2 hfuel
      have hdd : d = monthrange y m := by omega
      subst hdd
      obtain ⟨f2, rfl⟩ : ∃ f2, fuel = f2 + 2 := ⟨fuel - 2, by omega⟩
      have hnext : DT.ble
          (addStep DateFrequency.DAILY ⟨y, m, monthrange y m, 0, 0, 0⟩)
          ⟨y, m, monthrange y m, 0, 0, 0⟩ = false := by
        simp only [addStep]
        unfold nextDay
        simp only
        split_ifs with hlt hm12
        · omega
        · unfold DT.ble; simp
        · unfold DT.ble; simp
      simp [datesAux, DT.ble_refl, hnext]
      rw [show List.range 1 = [0] from rfl]
      simp
  | succ k ih =>
      intro d fuel hd1 hd2 hfuel
      obtain ⟨f1, rfl⟩ : ∃ f1, fuel = f1 + 1 := ⟨fuel - 1, by omega⟩
      have hg : DT.ble ⟨y, m, d, 0, 0, 0⟩ ⟨y, m, monthrange y m, 0, 0, 0⟩
          = true := by
        unfold DT.ble; simp; omega
      have hstep : addStep DateFrequency.DAILY ⟨y, m, d, 0, 0, 0⟩
          = ⟨y, m, d + 1, 0, 0, 0⟩ := by
        simp only [addStep]
        unfold nextDay
        simp only
        split_ifs with hlt hm12
        · rfl
        · omega
        · omega
      unfold datesAux
      rw [if_pos hg, hstep, ih (d + 1) f1 (by omega) (by omega) (by omega)]
      conv_rhs => rw [List.range_succ_eq_map]
      simp only [List.map_cons, List.map_map]
      refine congrArg (List.cons _) ?_
      refine List.map_congr_left ?_
      intro i _
      have hEq : d + 1 + i = d + (i + 1) := by omega
      simp [Function.comp, Nat.succ_eq_add_one, hEq]

/-- `MonthlyAccumManual.inform_dependencies` from
`mergedownloader/inpeparser.py`: a single entry keying `DAILY_RAIN` to the
daily range between `start_end_dates(date)`.  The source first formats the
bounds with `start_end_dates` and re-parses them inside `dates_range`; a
round trip of `normalize_date` followed by `parse_date` is the midnight
datetime used here.  `DailyParser.dates_range` comes from the
`DownloaderParser` base class, whose module is not part of the sources here;
modelled from the spec: the range expands `start..end` via the Calendar
Utility at the descriptor's own (daily) frequency. -/
def MonthlyAccumManual_inform_dependencies (date : DT) :
    List (DType × List String) :=
  [(DType.DAILY_RAIN,
    dates_range ⟨date.year, date.month, 1, 0, 0, 0⟩
      ⟨date.year, date.month, monthrange date.year date.month, 0, 0, 0⟩
      DateFrequency.DAILY)]

/-- **C6**.  For every valid date, `MonthlyAccumManual.inform_dependencies`
returns exactly one entry, keying `DAILY_RAIN` to the ordered list of every
calendar day of the date's month (formatted `YYYYMMDD`), whose length is the
number of days of that month. -/
theorem inform_dependencies_month_days (date : DT) (h : date.Valid) :
    MonthlyAccumManual_inform_dependencies date =
      [(DType.DAILY_RAIN,
        (List.range (monthrange date.year date.month)).map
          (fun i => normalize_date ⟨date.year, date.month, i + 1, 0, 0, 0⟩))] ∧
    (MonthlyAccumManual_inform_dependencies date).length = 1 ∧
    (dates_range ⟨date.year, date.month, 1, 0, 0, 0⟩
      ⟨date.year, date.month, monthrange date.year date.month, 0, 0, 0⟩
      DateFrequency.DAILY).length = monthrange date.year date.month := by
  obtain ⟨h1, h2, h3, h4, h5, h6, h7⟩ := h
  have hdim1 : 1 ≤ monthrange date.year date.month := monthrange_pos _ _
  have hdim31 : monthrange date.year date.month ≤ 31 := monthrange_le _ _
  have hfuel : monthrange date.year date.month - 1 + 2 ≤
      rangeFuel ⟨date.year, date.month, 1, 0, 0, 0⟩
        ⟨date.year, date.month, monthrange date.year date.month, 0, 0, 0⟩ := by
    unfold rangeFuel
    rw [DT.code_mk, DT.code_mk]
    omega
  have hrun := datesAux_month_run date.year date.month h1 h2
    (monthrange date.year date.month - 1) 1 _ (Nat.le_refl 1) (by omega) hfuel
  have hdt : datesRangeDT ⟨date.year, date.month, 1, 0, 0, 0⟩
      ⟨date.year, date.month, monthrange date.year date.month, 0, 0, 0⟩
      DateFrequency.DAILY =
      (List.range (monthrange date.year date.month)).map
        (fun i => ⟨date.year, date.month, 1 + i, 0, 0, 0⟩) := by
    unfold datesRangeDT
    rw [hrun]
    rw [show monthrange date.year date.month - 1 + 1
        = monthrange date.year date.month from by omega]
  have hstr : dates_range ⟨date.year, date.month, 1, 0, 0, 0⟩
      ⟨date.year, date.month, monthrange date.year date.month, 0, 0, 0⟩
      DateFrequency.DAILY =
      (List.range (monthrange date.year date.month)).map
        (fun i => normalize_date ⟨date.year, date.month, i + 1, 0, 0, 0⟩) := by
    unfold dates_range
    rw [hdt, List.map_map]
    refine List.map_congr_left ?_
    intro i _
    simp [Function.comp, rangeFmt]
    rw [Nat.add_comm]
  refine ⟨?_, rfl, ?_⟩
  · unfold MonthlyAccumManual_inform_dependencies
    rw [hstr]
  · rw [hstr, List.length_map, List.length_range]

/-- Witness for `inform_dependencies_month_days`: February 2023 yields exactly
28 daily dependencies. -/
theorem inform_dependencies_month_days_witness :
    (MonthlyAccumManual_inform_dependencies ⟨2023, 2, 10, 0, 0, 0⟩).length = 1 ∧
    (dates_range ⟨2023, 2, 1, 0, 0, 0⟩ ⟨2023, 2, 28, 0, 0, 0⟩
      DateFrequency.DAILY).length = 28 := by
  have h := inform_dependencies_month_days ⟨2023, 2, 10, 0, 0, 0⟩ (by decide)
  exact ⟨h.2.1, h.2.2⟩

/-- Proleptic-Gregorian day number of a date (Howard Hinnant's
days-from-civil algorithm, without the epoch shift).  Differences of
`civilDays` equal differences of Python `datetime.date.toordinal`, hence of
`datetime` date subtraction. -/
def civilDays (t : DT) : Nat :=
  let y := if t.month ≤ 2 then t.year - 1 else t.year
  let era := y / 400
  let yoe := y - era * 400
  let mp := if t.month > 2 then t.month - 3 else t.month + 9
  let doy := (153 * mp + 2) / 5 + (t.day - 1)
  let doe := yoe * 365 + yoe / 4 - yoe / 100 + doy
  era * 146097 + doe

/-- Seconds-since-reference of a datetime; differences equal Python
`datetime` subtraction expressed in seconds. -/
def epochSecs (t : DT) : Int :=
  (civilDays t : Int) * 86400 + t.hour * 3600 + t.minute * 60 + t.second

/-- Python `(a - b).seconds`: the `timedelta` seconds component,
normalised into `[0, 86400)` by flooring days. -/
def tdSeconds (a b : DT) : Int :=
  (epochSecs a - epochSecs b).emod 86400

/-- Python `(a - b).days`: the `timedelta` day component (floor). -/
def tdDays (a b : DT) : Int :=
  (epochSecs a - epochSecs b).ediv 86400

/-- The state of the local monthly-accumulation netCDF seen by
`MonthAccumParser.get_file` (raindownloader/inpeparser.py).  `readable` is
false when `xr.open_dataset` raises (the except-branch that logs the error
and forces an update); each attribute is `none` when the corresponding key is
absent from `dset.attrs`.  `updated` is the parsed `str(datetime.now())`
timestamp, `lastDay` the parsed `YYYYMMDD` string (midnight), `days` the
stored integer. -/
structure LocalNc where
  readable : Bool
  updated : Option DT
  lastDay : Option DT
  days : Option Nat
deriving DecidableEq, Repr

/-- The expected day count `ref_days` of `MonthAccumParser.get_file`:
`now.day` if the requested month is the current month, otherwise
`calendar.monthrange(date.year, date.month)[1]`. -/
def refDays (now date : DT) : Nat :=
  if date.year = now.year ∧ date.month = now.month then now.day
  else monthrange date.year date.month

/-- The `must_update` decision of `MonthAccumParser.get_file`
(raindownloader/inpeparser.py, lines 261-341), as a function of the clock
`now`, the requested `date`, the `force_download` flag and the local artifact
state.  Mirrors the source in order: missing file or `force_download` →
update; unreadable file → update (the read error is logged, not raised);
missing `updated`/`days`/`last_day` attribute → update; `update_delta.seconds
< 30*60` → keep; `days != ref_days` → update; `(now - last_day).days < 30`
and `update_delta.seconds > 2*60*60` → update; otherwise keep. -/
def mustUpdateRain (now date : DT) (force : Bool) (file : Option LocalNc) :
    Bool :=
  match file with
  | none => true
  | some f =>
    if force then true
    else if !f.readable then true
    else
      match f.updated, f.lastDay, f.days with
      | some u, some ld, some dys =>
          if tdSeconds now u < 30 * 60 then false
          else if dys ≠ refDays now date then true
          else if tdDays now ld < 30 then decide (tdSeconds now u > 2 * 60 * 60)
          else false
      | _, _, _ => true

/-- What `MonthAccumParser.get_file` does with the `must_update` decision:
recompute via `accum_monthly_rain` (which refetches the daily dependencies)
or return the existing `local_target` unchanged. -/
inductive FileOutcome where
  | recomputed
  | cached
deriving DecidableEq, Repr

/-- `MonthAccumParser.get_file`, reduced to its control decision. -/
def getFileRain (now date : DT) (force : Bool) (file : Option LocalNc) :
    FileOutcome :=
  if mustUpdateRain now date force file then .recomputed else .cached

/-- **C1** counterexample to the claim as written.  At
`now = 2023-03-15 00:00:00`, for the past month 2023-02 the artifact is
complete (`days = 28 = monthrange 2023 2`), carries all three attributes and
its `updated` timestamp `2023-03-12 00:00:00` is exactly 3 days old — more
than the claimed 2-day threshold, so the claim demands a recompute.  The code
instead returns it unchanged: `update_delta.seconds` is the *sub-day* seconds
component, here `0 < 30*60`, so the 30-minute gate fires. -/
theorem monthly_staleness_two_day_cex :
    (epochSecs ⟨2023, 3, 15, 0, 0, 0⟩ - epochSecs ⟨2023, 3, 12, 0, 0, 0⟩
      = 3 * 86400) ∧
    (3 * 86400 : Int) > 2 * 86400 ∧
    monthrange 2023 2 = 28 ∧
    getFileRain ⟨2023, 3, 15, 0, 0, 0⟩ ⟨2023, 2, 1, 0, 0, 0⟩ false
      (some ⟨true, some ⟨2023, 3, 12, 0, 0, 0⟩, some ⟨2023, 2, 28, 0, 0, 0⟩,
        some 28⟩) = FileOutcome.cached := by
  refine ⟨by decide, by decide, by decide, ?_⟩
  decide

/-- **C1** (amended).  For a readable, fully-attributed, *complete* artifact
(`days` equals the expected day count: full month length for a past month,
today's day-of-month for the current month), the staleness check recomputes
iff the *seconds component* of `now - updated` (its sub-day remainder)
exceeds 2 hours **and** `last_day` lies fewer than 30 days in the past;
otherwise — in particular whenever `now - updated` is within 30 minutes of a
whole number of days, e.g. exactly 3 days — the artifact is returned
unchanged. -/
theorem monthly_staleness_complete (now date u ld : DT) (dys : Nat)
    (hcomplete : dys = refDays now date) :
    getFileRain now date false (some ⟨true, some u, some ld, some dys⟩) =
      (if tdSeconds now u > 2 * 60 * 60 ∧ tdDays now ld < 30 then
        FileOutcome.recomputed else FileOutcome.cached) := by
  have hmu : mustUpdateRain now date false
      (some ⟨true, some u, some ld, some dys⟩) =
      (if tdSeconds now u < 30 * 60 then false
       else if dys ≠ refDays now date then true
       else if tdDays now ld < 30 then decide (tdSeconds now u > 2 * 60 * 60)
       else false) := rfl
  subst hcomplete
  unfold getFileRain
  rw [hmu]
  by_cases c1 : tdSeconds now u < 30 * 60
  · rw [if_pos c1, if_neg (show ¬(tdSeconds now u > 2 * 60 * 60 ∧
      tdDays now ld < 30) from by omega)]
    rfl
  · rw [if_neg c1,
      if_neg (show ¬(refDays now date ≠ refDays now date) from by simp)]
    by_cases c3 : tdDays now ld < 30
    · rw [if_pos c3]
      by_cases c4 : tdSeconds now u > 2 * 60 * 60
      · rw [if_pos (show tdSeconds now u > 2 * 60 * 60 ∧ tdDays now ld < 30
          from ⟨c4, c3⟩)]
        rw [if_pos (decide_eq_true c4)]
      · rw [if_neg (show ¬(tdSeconds now u > 2 * 60 * 60 ∧ tdDays now ld < 30)
          from fun h => c4 h.1)]
        rw [if_neg (show ¬(decide (tdSeconds now u > 2 * 60 * 60) = true)
          from by simpa using c4)]
    · rw [if_neg c3, if_neg (show ¬(tdSeconds now u > 2 * 60 * 60 ∧
        tdDays now ld < 30) from fun h => c3 h.2)]
      rfl

/-- Witness for `monthly_staleness_complete`: `updated` 3 days and 3 hours
old, `last_day` 15 days back → recomputed; the same artifact `updated`
exactly 3 days ago → cached. -/
theorem monthly_staleness_complete_witness :
    getFileRain ⟨2023, 3, 15, 3, 0, 0⟩ ⟨2023, 2, 1, 0, 0, 0⟩ false
      (some ⟨true, some ⟨2023, 3, 12, 0, 0, 0⟩, some ⟨2023, 2, 28, 0, 0, 0⟩,
        some 28⟩) = FileOutcome.recomputed ∧
    getFileRain ⟨2023, 3, 15, 0, 0, 0⟩ ⟨2023, 2, 1, 0, 0, 0⟩ false
      (some ⟨true, some ⟨2023, 3, 12, 0, 0, 0⟩, some ⟨2023, 2, 28, 0, 0, 0⟩,
        some 28⟩) = FileOutcome.cached := by
  constructor
  · rw [monthly_staleness_complete ⟨2023, 3, 15, 3, 0, 0⟩ ⟨2023, 2, 1, 0, 0, 0⟩
      ⟨2023, 3, 12, 0, 0, 0⟩ ⟨2023, 2, 28, 0, 0, 0⟩ 28 (by decide)]
    decide
  · rw [monthly_staleness_complete ⟨2023, 3, 15, 0, 0, 0⟩ ⟨2023, 2, 1, 0, 0, 0⟩
      ⟨2023, 3, 12, 0, 0, 0⟩ ⟨2023, 2, 28, 0, 0, 0⟩ 28 (by decide)]
    decide

/-- **C4**.  A missing artifact, an artifact whose read raises (absorbed into
the logged except-branch, never propagated: the decision is still a total
boolean), and an artifact lacking any of `updated`/`last_day`/`days` are all
reported stale and recomputed. -/
theorem monthly_staleness_missing_unreadable_legacy :
    (∀ (now date : DT) (force : Bool),
      getFileRain now date force none = FileOutcome.recomputed) ∧
    (∀ (now date : DT) (force : Bool) (f : LocalNc), f.readable = false →
      getFileRain now date force (some f) = FileOutcome.recomputed) ∧
    (∀ (now date : DT) (force : Bool) (f : LocalNc),
      f.updated = none ∨ f.lastDay = none ∨ f.days = none →
      getFileRain now date force (some f) = FileOutcome.recomputed) := by
  refine ⟨fun now date force => rfl, ?_, ?_⟩
  · intro now date force f hf
    obtain ⟨r, u, ld, dys⟩ := f
    dsimp only at hf
    subst hf
    cases force <;> rfl
  · intro now date force f hf
    obtain ⟨r, u, ld, dys⟩ := f
    rcases hf with h | h | h
    · dsimp only at h
      subst h
      rcases ld with _ | ld <;> rcases dys with _ | dys <;>
        cases force <;> cases r <;> rfl
    · dsimp only at h
      subst h
      rcases u with _ | u <;> rcases dys with _ | dys <;>
        cases force <;> cases r <;> rfl
    · dsimp only at h
      subst h
      rcases u with _ | u <;> rcases ld with _ | ld <;>
        cases force <;> cases r <;> rfl

/-- Witness for `monthly_staleness_missing_unreadable_legacy`. -/
theorem monthly_staleness_missing_unreadable_legacy_witness :
    getFileRain ⟨2023, 3, 15, 0, 0, 0⟩ ⟨2023, 2, 1, 0, 0, 0⟩ false none
      = FileOutcome.recomputed ∧
    getFileRain ⟨2023, 3, 15, 0, 0, 0⟩ ⟨2023, 2, 1, 0, 0, 0⟩ false
      (some ⟨false, some ⟨2023, 3, 12, 0, 0, 0⟩, some ⟨2023, 2, 28, 0, 0, 0⟩,
        some 28⟩) = FileOutcome.recomputed ∧
    getFileRain ⟨2023, 3, 15, 0, 0, 0⟩ ⟨2023, 2, 1, 0, 0, 0⟩ false
      (some ⟨true, none, some ⟨2023, 2, 28, 0, 0, 0⟩, some 28⟩)
      = FileOutcome.recomputed :=
  ⟨monthly_staleness_missing_unreadable_legacy.1 _ _ _,
   monthly_staleness_missing_unreadable_legacy.2.1 _ _ _ _ rfl,
   monthly_staleness_missing_unreadable_legacy.2.2 _ _ _ _ (Or.inl rfl)⟩

/-- `Downloader.get_files` (mergedownloader/downloader.py): loop over the
dates; each `get_file` call either returns a value — which may itself be the
`None` not-found sentinel from `FileDownloader.download_file` — or raises, in
which case the exception is caught, logged, and `None` is appended.  A raise
is embedded as `Except.error`. -/
def Downloader_get_files {α ε π : Type} (get_file : α → Except ε (Option π))
    (dates : List α) : List (Option π) :=
  dates.map (fun date =>
    match get_file date with
    | .ok file => file
    | .error _ => none)

/-- **C3** (amended).  `get_files` returns exactly one entry per input date,
in input order; it never raises (it is a total function of the per-date
results); entry `i` is the resolved value for date `i`, and is `None` exactly
when resolving that date raised an error *or* returned the not-found
sentinel. -/
theorem get_files_per_date_nulls {α ε π : Type}
    (get_file : α → Except ε (Option π)) (dates : List α) :
    (Downloader_get_files get_file dates).length = dates.length ∧
    (∀ (i : Nat) (d : α), dates.get? i = some d →
      (Downloader_get_files get_file dates).get? i =
        some (match get_file d with | .ok file => file | .error _ => none)) ∧
    (∀ (i : Nat) (d : α), dates.get? i = some d →
      ((Downloader_get_files get_file dates).get? i = some none ↔
        get_file d = .ok none ∨ ∃ e, get_file d = .error e)) := by
  have hmap : ∀ (i : Nat) (d : α), dates.get? i = some d →
      (Downloader_get_files get_file dates).get? i =
        some (match get_file d with | .ok file => file | .error _ => none) := by
    intro i d hd
    unfold Downloader_get_files
    rw [List.get?_map, hd]
    rfl
  refine ⟨List.length_map _ _, hmap, ?_⟩
  intro i d hd
  rw [hmap i d hd]
  cases hres : get_file d with
  | ok v =>
      cases v with
      | none => simp [hres]
      | some p => simp [hres]
  | error e => simp [hres]

/-- A fetch that reports the provider 404 sentinel (returns `None`) without
raising. -/
def fetchNotFoundStub : Nat → Except Nat (Option String) :=
  fun _ => Except.ok none

/-- **C3** counterexample to the claim as written: resolving the single date
returns the not-found sentinel without raising any error, yet the resulting
entry is `None` — so "null exactly when resolving that date raised an error"
fails in the right-to-left direction. -/
theorem get_files_null_without_error_cex :
    Downloader_get_files fetchNotFoundStub [0] = [none] ∧
    fetchNotFoundStub 0 = Except.ok none :=
  ⟨rfl, rfl⟩

/-- A fetch where exactly the date `2` raises. -/
def fetchOneMissing : Nat → Except String (Option String) := fun d =>
  if d = 2 then Except.error "NotFound" else Except.ok (some (toString d))

/-- Witness for `get_files_per_date_nulls`: five dates, date 2 raises →
five entries, entry 2 is `None`, entry 1 is populated. -/
theorem get_files_per_date_nulls_witness :
    (Downloader_get_files fetchOneMissing [0, 1, 2, 3, 4]).length = 5 ∧
    (Downloader_get_files fetchOneMissing [0, 1, 2, 3, 4]).get? 2
      = some none ∧
    (Downloader_get_files fetchOneMissing [0, 1, 2, 3, 4]).get? 1
      = some (some "1") :=
  ⟨(get_files_per_date_nulls fetchOneMissing [0, 1, 2, 3, 4]).1,
   (get_files_per_date_nulls fetchOneMissing [0, 1, 2, 3, 4]).2.1 2 2 rfl,
   (get_files_per_date_nulls fetchOneMissing [0, 1, 2, 3, 4]).2.1 1 1 rfl⟩

/-- The inputs of `Downloader._process_file` that determine its control flow:
the processor's `local_target`, its `must_update` verdict, and its
`inform_dependencies` output (which may be `None`, as for the
stats-based types). -/
structure ProcModel where
  localTarget : String
  mustUpdate : Bool
  dependencies : Option (List (DType × List String))
deriving DecidableEq, Repr

/-- `Downloader._process_file` (mergedownloader/downloader.py, lines
121-153), instrumented with invocation counts: the result is the returned
path together with the number of per-element dependency resolutions
(`open_file` calls issued by `_parse_dependencies`) and of `create_file`
invocations.  When `must_update` is false the existing local target is
returned immediately — no dependencies are resolved and `create_file` is not
called. -/
def Downloader_process_file (p : ProcModel) : String × Nat × Nat :=
  if !p.mustUpdate then (p.localTarget, 0, 0)
  else
    let depCalls :=
      match p.dependencies with
      | some deps => (deps.map (fun entry => entry.2.length)).sum
      | none => 0
    (p.localTarget, depCalls, 1)

/-- **C5**.  A second `resolve` of the same key with no intervening time
passage returns the same local path without re-invoking dependency
resolution or the compute function: (1) when `must_update` is false,
`_process_file` returns the local target with zero dependency resolutions and
zero `create_file` calls; (2) either way the returned path is the same
deterministic `local_target`; (3) an artifact just written (its `updated`
attribute equal to `now`, as `accum_monthly_rain` stamps it) makes
`must_update` false, via the 30-minute gate of `MonthAccumParser.get_file`. -/
theorem resolve_idempotent_second_call :
    (∀ p : ProcModel, p.mustUpdate = false →
      Downloader_process_file p = (p.localTarget, 0, 0)) ∧
    (∀ p : ProcModel, (Downloader_process_file p).1 = p.localTarget) ∧
    (∀ (now date ld : DT) (dys : Nat),
      mustUpdateRain now date false (some ⟨true, some now, some ld, some dys⟩)
        = false) := by
  refine ⟨?_, ?_, ?_⟩
  · intro p hp
    unfold Downloader_process_file
    rw [hp]
    rfl
  · intro p
    unfold Downloader_process_file
    by_cases hp : p.mustUpdate
    · rw [hp]
      rfl
    · have hp2 : p.mustUpdate = false := by simpa using hp
      rw [hp2]
      rfl
  · intro now date ld dys
    have h0 : tdSeconds now now < 30 * 60 := by
      unfold tdSeconds
      simp
      decide
    have hmu : mustUpdateRain now date false
        (some ⟨true, some now, some ld, some dys⟩) =
        (if tdSeconds now now < 30 * 60 then false
         else if dys ≠ refDays now date then true
         else if tdDays now ld < 30 then
           decide (tdSeconds now now > 2 * 60 * 60)
         else false) := rfl
    rw [hmu, if_pos h0]

/-- A fresh monthly artifact state as `_process_file` sees it on the second
call. -/
def procFresh : ProcModel :=
  ⟨"MONTHLY_ACCUM_MANUAL/MERGE_CPTEC_acum_feb_2023.nc", false,
   some [(DType.DAILY_RAIN, ["20230201", "20230202"])]⟩

/-- Witness for `resolve_idempotent_second_call`. -/
theorem resolve_idempotent_second_call_witness :
    Downloader_process_file procFresh = (procFresh.localTarget, 0, 0) ∧
    mustUpdateRain ⟨2023, 3, 15, 10, 30, 0⟩ ⟨2023, 2, 1, 0, 0, 0⟩ false
      (some ⟨true, some ⟨2023, 3, 15, 10, 30, 0⟩, some ⟨2023, 2, 28, 0, 0, 0⟩,
        some 28⟩) = false :=
  ⟨resolve_idempotent_second_call.1 procFresh rfl,
   resolve_idempotent_second_call.2.2 ⟨2023, 3, 15, 10, 30, 0⟩
     ⟨2023, 2, 1, 0, 0, 0⟩ ⟨2023, 2, 28, 0, 0, 0⟩ 28⟩

/-- The three artifact attributes (`dset.attrs` keys) the staleness policy
trusts, as optional string values. -/
structure XrAttrs where
  updated : Option String
  lastDay : Option String
  days : Option String
deriving DecidableEq, Repr

/-- An xarray object reduced to what `_save_stats` manipulates: its variable
name and its attribute bag.  `assign_coords`/`expand_dims`/`rename` return
new objects carrying over the attrs; `to_dataset` yields a dataset whose
attribute bag is then overwritten with the three keys. -/
structure XrArray where
  varName : String
  attrs : XrAttrs
deriving DecidableEq, Repr

/-- `StatsCalculator._save_stats` (mergedownloader/stats_calculator.py, lines
39-70).  The function builds `arr` (time dimension added, variable renamed),
then builds `dset = arr.to_dataset()` and sets `updated`/`last_day`/`days` on
`dset.attrs` — but the final write is `arr.to_netcdf(local_target)`: the
*array*, not the dataset, is persisted, and `dset` is never used again.  The
result is the pair (what is persisted, the dead `dset`). -/
def StatsCalculator_save_stats (arr : XrArray) (varname nowStr : String) :
    XrArray × XrArray :=
  let arr2 : XrArray := { arr with varName := varname }
  let dset : XrArray := { arr2 with
    attrs := ⟨some nowStr, some "NA", some "NA"⟩ }
  (arr2, dset)

/-- `StatsCalculator.calc_monthly_avg_std_n` (lines 73-118): for each of the
12 calendar months, persist one rolling-mean and one
rolling-standard-deviation artifact through `_save_stats`.  The arrays come
out of `cube.rolling(...).mean()` / `groupby(...).mean()/std()`, which drop
source attributes (xarray default `keep_attrs=False`), so the attr bags
reaching `_save_stats` are empty. -/
def StatsCalculator_calc_monthly_avg_std_n (nowStr : String) : List XrArray :=
  (List.range 12).bind (fun _ =>
    [(StatsCalculator_save_stats ⟨"pacum", ⟨none, none, none⟩⟩ "avg_n"
        nowStr).1,
     (StatsCalculator_save_stats ⟨"pacum", ⟨none, none, none⟩⟩ "std_n"
        nowStr).1])

/-- **C7** (code bug).  The job does write 24 artifacts (two per calendar
month), but every *persisted* artifact carries none of
`updated`/`last_day`/`days`: those attributes are set on the `dset` local —
the third conjunct shows the dead `dset` does carry them exactly as the claim
(and the function's own docstring) describe — while `arr`, which lacks them,
is what `to_netcdf` persists. -/
theorem stats_attrs_not_persisted :
    (StatsCalculator_calc_monthly_avg_std_n "2024-01-01 00:00:00").length
      = 24 ∧
    (StatsCalculator_calc_monthly_avg_std_n "2024-01-01 00:00:00").all
      (fun a => decide (a.attrs.updated = none ∧ a.attrs.lastDay = none ∧
        a.attrs.days = none)) = true ∧
    (StatsCalculator_save_stats ⟨"pacum", ⟨none, none, none⟩⟩ "avg_n"
      "2024-01-01 00:00:00").2.attrs =
      ⟨some "2024-01-01 00:00:00", some "NA", some "NA"⟩ := by
  refine ⟨rfl, by decide, rfl⟩

/-- The outcome of one download attempt inside
`FileDownloader.download_file`: the body succeeded, raised
`HTTPError` with code 404, raised another `HTTPError`, raised `EOFError`,
or raised some other exception. -/
inductive AttemptOutcome where
  | success
  | notFound
  | httpOther
  | eofErr
  | otherErr
deriving DecidableEq, Repr

/-- What the `download_file` call as a whole does: return the local path,
return the `None` not-found sentinel, raise `ConnectionError`, or raise
`TypeError` (the `EOFError` handler calls `self.logger(e)` — a `Logger`
object is not callable). -/
inductive DlResult where
  | localPath
  | noneNotFound
  | connError
  | typeError
deriving DecidableEq, Repr

/-- The retry loop of `FileDownloader.download_file`
(mergedownloader/file_downloader.py, lines 250-276), indexed by the number of
remaining attempts (`attempt = retrials - rem`).  Python semantics of the
`finally` clause: it runs on *every* exit from the iteration — after a
`break` on success, after the `return None` of the 404 handler, and after a
propagating exception — so on the last attempt (`attempt == retrials - 1`)
the `raise ConnectionError` replaces whatever outcome the iteration had.
If the loop finishes without `break` (only possible when `retrials == 0`),
the function returns `local_path` unconditionally. -/
def dlAttempts (outcome : Nat → AttemptOutcome) (retrials : Nat) :
    Nat → DlResult
  | 0 => DlResult.localPath
  | rem + 1 =>
      let attempt := retrials - (rem + 1)
      let isLast := rem == 0
      match outcome attempt with
      | .success => if isLast then .connError else .localPath
      | .notFound => if isLast then .connError else .noneNotFound
      | .eofErr => if isLast then .connError else .typeError
      | .httpOther =>
          if isLast then .connError else dlAttempts outcome retrials rem
      | .otherErr =>
          if isLast then .connError else dlAttempts outcome retrials rem

/-- `FileDownloader.download_file`, as a function of the per-attempt
outcomes and the retry budget. -/
def FileDownloader_download_file (outcome : Nat → AttemptOutcome)
    (retrials : Nat) : DlResult :=
  dlAttempts outcome retrials retrials

/-- **C9** (code bug).  With the default budget of 5: a success before the
final attempt returns the path and a 404 before the final attempt returns the
not-found sentinel, and an exhausted budget raises `ConnectionError` — those
parts of the claim hold.  But the `finally: if attempt == retrials - 1: raise
ConnectionError` clause also runs after the `break` of a *successful* last
attempt and after the `return None` of a 404 on the last attempt, so both are
turned into `ConnectionError` — with `retrials = 1`, even a download that
succeeds immediately raises. -/
theorem download_file_finally_clause :
    FileDownloader_download_file (fun _ => AttemptOutcome.success) 5
      = DlResult.localPath ∧
    FileDownloader_download_file (fun _ => AttemptOutcome.notFound) 5
      = DlResult.noneNotFound ∧
    FileDownloader_download_file (fun _ => AttemptOutcome.otherErr) 5
      = DlResult.connError ∧
    FileDownloader_download_file
      (fun a => if a < 4 then AttemptOutcome.otherErr
        else AttemptOutcome.success) 5 = DlResult.connError ∧
    FileDownloader_download_file
      (fun a => if a < 4 then AttemptOutcome.otherErr
        else AttemptOutcome.notFound) 5 = DlResult.connError ∧
    FileDownloader_download_file (fun _ => AttemptOutcome.success) 1
      = DlResult.connError := by
  decide

/-- Errors raised by `SPIProcessor.inform_dependencies` before any
dependency mapping is computed. -/
inductive SpiError where
  | currentMonth
  | futureDate
deriving DecidableEq, Repr

/-- A dependency element of the SPI processor: a `{date, n}` parameter set
for the stats types, or a month key for the accumulated-rain months. -/
inductive SpiDepKey where
  | dateN (year month n : Nat)
  | monthKey (year month : Nat)
deriving DecidableEq, Repr

/-- Zero-based month index, strictly monotone in (year, month) for valid
dates. -/
def monthIdx (t : DT) : Nat :=
  t.year * 12 + (t.month - 1)

/-- `SPIProcessor.inform_dependencies` (mergedownloader/inpeparser.py, lines
473-495).  Guards, in source order: same year and month as today → raise;
`date >= today` → raise.  Otherwise the dependency mapping: the
`MONTHLY_AVG_N` / `MONTHLY_STD_N` `{date, n}` entries and the
`MONTHLY_ACCUM_MANUAL` months of `last_n_months(date, n)` (the `n` months
ending at `date`'s month, here at month granularity). -/
def SPIProcessor_inform_dependencies (today date : DT) (n : Nat) :
    Except SpiError (List (DType × List SpiDepKey)) :=
  if today.year = date.year ∧ today.month = date.month then
    Except.error SpiError.currentMonth
  else if DT.ble today date then Except.error SpiError.futureDate
  else
    Except.ok
      [(DType.MONTHLY_AVG_N, [SpiDepKey.dateN date.year date.month n]),
       (DType.MONTHLY_STD_N, [SpiDepKey.dateN date.year date.month n]),
       (DType.MONTHLY_ACCUM_MANUAL,
        (List.range n).map (fun k =>
          SpiDepKey.monthKey ((monthIdx date + 1 + k - n) / 12)
            ((monthIdx date + 1 + k - n) % 12 + 1)))]

/-- **C10**.  For every date in the current calendar month or later (month
index at least today's), `SPIProcessor.inform_dependencies` raises before
returning any dependency mapping: an SPI artifact is only computable for
strictly past months. -/
theorem spi_rejects_current_or_future (today date : DT) (n : Nat)
    (ht : today.Valid) (hd : date.Valid)
    (h : monthIdx today ≤ monthIdx date) :
    ∃ e, SPIProcessor_inform_dependencies today date n = Except.error e := by
  unfold SPIProcessor_inform_dependencies
  by_cases hsame : today.year = date.year ∧ today.month = date.month
  · rw [if_pos hsame]
    exact ⟨_, rfl⟩
  · rw [if_neg hsame]
    obtain ⟨t1, t2, t3, t4, t5, t6, t7⟩ := ht
    obtain ⟨d1, d2, d3, d4, d5, d6, d7⟩ := hd
    unfold monthIdx at h
    have hble : DT.ble today date = true := by
      unfold DT.ble
      split_ifs with g1 g2 <;> simp_all <;> omega
    rw [if_pos hble]
    exact ⟨_, rfl⟩

/-- Witness for `spi_rejects_current_or_future`: with today 2026-10-12, both
a date inside the current month and a date in a later month are rejected. -/
theorem spi_rejects_current_or_future_witness :
    (∃ e, SPIProcessor_inform_dependencies ⟨2026, 10, 12, 0, 0, 0⟩
      ⟨2026, 10, 1, 0, 0, 0⟩ 3 = Except.error e) ∧
    (∃ e, SPIProcessor_inform_dependencies ⟨2026, 10, 12, 0, 0, 0⟩
      ⟨2026, 11, 1, 0, 0, 0⟩ 3 = Except.error e) :=
  ⟨spi_rejects_current_or_future ⟨2026, 10, 12, 0, 0, 0⟩
      ⟨2026, 10, 1, 0, 0, 0⟩ 3 (by decide) (by decide) (by decide),
   spi_rejects_current_or_future ⟨2026, 10, 12, 0, 0, 0⟩
      ⟨2026, 11, 1, 0, 0, 0⟩ 3 (by decide) (by decide) (by decide)⟩

end MergeDl
